import Mathlib

/-!
Verification development for the wg-bridge repository (Rust).

The repository provides two components:
* an asynchronous singleton file logger (src/core/logger.rs): producer
  threads format lines and send them over an mpsc channel to a single
  background writer thread;
* a singleton JSON configuration store (src/core/config.rs): load/save of
  a `Config` struct, serialized via serde_json, persisted in the user's
  home directory.

Strings are embedded as `List Char` (Rust `String` is a sequence of
Unicode scalar values, as is Lean's `Char`).  Panics are embedded as the
`Except.error` branch of an `Except String _` result carrying the panic
message.  The mpsc channel is embedded as a FIFO queue (`List`) plus a
`closed` flag (the receiving end was dropped).
-/

namespace WgBridge

/-! ## Characters and decimal/hexadecimal digits -/

/-- Decimal digit character of `n % 10` (rendering of one decimal digit,
as done by Rust's integer `Display` used inside chrono's formatter). -/
def natDigit (n : Nat) : Char :=
  match n % 10 with
  | 0 => '0' | 1 => '1' | 2 => '2' | 3 => '3' | 4 => '4'
  | 5 => '5' | 6 => '6' | 7 => '7' | 8 => '8' | _ => '9'

/-- Lowercase hexadecimal digit character of `n % 16` (serde_json's
`HEX_DIGITS` table used for `\u00XX` escapes is lowercase). -/
def hexDigit (n : Nat) : Char :=
  match n % 16 with
  | 0 => '0' | 1 => '1' | 2 => '2' | 3 => '3' | 4 => '4'
  | 5 => '5' | 6 => '6' | 7 => '7' | 8 => '8' | 9 => '9'
  | 10 => 'a' | 11 => 'b' | 12 => 'c' | 13 => 'd' | 14 => 'e' | _ => 'f'

/-- ASCII decimal digit test (the `\d` character class). -/
def isDigitB (c : Char) : Bool :=
  48 ≤ c.toNat && c.toNat ≤ 57

/-- Whitespace test (the `\s` character class restricted to the
characters this code base can emit). -/
def isWsB (c : Char) : Bool :=
  c == ' ' || c == '\t' || c == '\n' || c == '\r'

/-! ## Timestamps (model of chrono `Local::now().format("...")`)

`Logger::log` formats the current local time with the chrono pattern
`%Y-%m-%d %H:%M:%S%.3f`.  We embed a local time as a record of calendar
fields and model chrono's rendering of that pattern: zero-padded fields
of widths 4, 2, 2, 2, 2, 2 and a 3-digit fractional part. -/

structure DateTime where
  year : Nat
  month : Nat
  day : Nat
  hour : Nat
  minute : Nat
  second : Nat
  millis : Nat

/-- Two-digit zero-padded rendering (`%m`, `%d`, `%H`, `%M`, `%S` for
in-range values). -/
def pad2 (n : Nat) : List Char := [natDigit (n / 10), natDigit n]

/-- Three-digit zero-padded rendering (`%.3f`'s digits). -/
def pad3 (n : Nat) : List Char := [natDigit (n / 100), natDigit (n / 10), natDigit n]

/-- Four-digit zero-padded rendering (`%Y` for years below 10000). -/
def pad4 (n : Nat) : List Char :=
  [natDigit (n / 1000), natDigit (n / 100), natDigit (n / 10), natDigit n]

/-- chrono rendering of `%Y-%m-%d %H:%M:%S%.3f`. -/
def formatTimestamp (t : DateTime) : List Char :=
  pad4 t.year ++ '-' :: pad2 t.month ++ '-' :: pad2 t.day ++ ' ' ::
  pad2 t.hour ++ ':' :: pad2 t.minute ++ ':' :: pad2 t.second ++ '.' :: pad3 t.millis

/-! ## Line formatting (model of `format!("{timestamp:<20} - {level:<8}  {message}")`)

Rust's `{x:<w}` left-aligns `x`, padding on the right with spaces up to a
minimum width `w`. -/

/-- Rust `format!` left-alignment `{s:<n}`: pad on the right with spaces
to minimum width `n`. -/
def padTo (n : Nat) (s : List Char) : List Char :=
  s ++ List.replicate (n - s.length) ' '

/-- The line built by `Logger::log` / `Logger::log_error`:
`format!("{timestamp:<20} - {level:<8}  {message}")`. -/
def formatLine (t : DateTime) (level message : List Char) : List Char :=
  padTo 20 (formatTimestamp t) ++ ' ' :: '-' :: ' ' :: padTo 8 level ++ ' ' :: ' ' :: message

/-- The part of a log line before the message: timestamp, dash, padded
level, two spaces.  `formatLine t lvl m = linePrefix t lvl ++ m`. -/
def linePrefix (t : DateTime) (level : List Char) : List Char :=
  padTo 20 (formatTimestamp t) ++ ' ' :: '-' :: ' ' :: padTo 8 level ++ [' ', ' ']

/-! ## The mpsc channel and the Logger

`std::sync::mpsc::channel` is an unbounded FIFO queue.  `Sender::send`
appends and returns `Ok(())`, unless the receiving end was dropped, in
which case the queue is gone and `send` returns `Err(SendError)`.  We
embed the channel as its queue plus a `closed` flag; `send` returns the
new state and a `Bool` (`true` = `Ok`). -/

structure Channel where
  closed : Bool
  queue : List (List Char)
deriving DecidableEq

def Channel.send (ch : Channel) (m : List Char) : Channel × Bool :=
  if ch.closed then (ch, false)
  else ({ ch with queue := ch.queue ++ [m] }, true)

/-- The `Logger` struct of logger.rs holds only the clonable send-end of
the channel; the channel state itself is passed explicitly. -/
structure Logger where
  sender : Unit

/-- The four severity level strings. -/
def lDEBUG : List Char := ['D', 'E', 'B', 'U', 'G']

def lINFO : List Char := ['I', 'N', 'F', 'O']

def lWARN : List Char := ['W', 'A', 'R', 'N']

def lERROR : List Char := ['E', 'R', 'R', 'O', 'R']

/-- Model of `Logger::log`: format the line with the current local time `t` and
send it; the send's `Result` is discarded (`let _ = ...`), so the
function returns only the new channel state. -/
def Logger.log (t : DateTime) (ch : Channel) (level message : List Char) : Channel :=
  (ch.send (formatLine t level message)).1

/-- Model of `Logger::log_error`: one timestamp `t` is taken, two lines are
formatted with it (message, then the error's `Display` text) and sent by
two separate `send` calls, both `Result`s discarded. -/
def Logger.logError (t : DateTime) (ch : Channel) (level message errText : List Char) : Channel :=
  let ch1 := (ch.send (formatLine t level message)).1
  (ch1.send (formatLine t level errText)).1

def Logger.debug (t : DateTime) (ch : Channel) (message : List Char) : Channel :=
  Logger.log t ch lDEBUG message

def Logger.info (t : DateTime) (ch : Channel) (message : List Char) : Channel :=
  Logger.log t ch lINFO message

def Logger.warn (t : DateTime) (ch : Channel) (message : List Char) : Channel :=
  Logger.log t ch lWARN message

def Logger.error (t : DateTime) (ch : Channel) (message : List Char) : Channel :=
  Logger.log t ch lERROR message

def Logger.debugError (t : DateTime) (ch : Channel) (message errText : List Char) : Channel :=
  Logger.logError t ch lDEBUG message errText

def Logger.infoError (t : DateTime) (ch : Channel) (message errText : List Char) : Channel :=
  Logger.logError t ch lINFO message errText

def Logger.warnError (t : DateTime) (ch : Channel) (message errText : List Char) : Channel :=
  Logger.logError t ch lWARN message errText

def Logger.errorError (t : DateTime) (ch : Channel) (message errText : List Char) : Channel :=
  Logger.logError t ch lERROR message errText

/-! ### The Logger singleton (`static LOGGER: OnceLock<Logger>`)

`OnceLock` is embedded as `Option Logger`; a panic (`expect`) is the
`Except.error` branch carrying the panic message. -/

/-- Model of `Logger::get`: `LOGGER.get().expect("Logger not initialized")`. -/
def Logger.getSingleton (s : Option Logger) : Except String Logger :=
  match s with
  | some l => Except.ok l
  | none => Except.error ("Logger not initialized")

/-- Model of `Logger::init`: create a fresh channel, spawn the worker, then
`LOGGER.set(logger).expect("Logger already initialized")`.  Returns the
new singleton state and the fresh channel. -/
def Logger.initStep (s : Option Logger) : Except String (Option Logger × Channel) :=
  match s with
  | none => Except.ok (some { sender := () }, { closed := false, queue := [] })
  | some _ => Except.error ("Logger already initialized")

/-! ## The worker loop (`for message in rx { ... }`)

The worker receives until the channel closes (all senders dropped); the
received messages, in order, are `msgs`.  Each iteration attempts
`writeln!(file, "{message}")`; outcome oracle `wres i` gives, for the
`i`-th received message, `none` on success or `some e` (the I/O error's
`Display` text) on failure.  On failure the worker prints
`"Failed to write log: <e>"` to stderr and CONTINUES the loop; the loop
ends only when `msgs` is exhausted (channel closed).  Returns the log
file's lines and the stderr lines. -/

def failLine (e : List Char) : List Char :=
  ['F', 'a', 'i', 'l', 'e', 'd', ' ', 't', 'o', ' ', 'w', 'r', 'i', 't', 'e', ' ',
   'l', 'o', 'g', ':', ' '] ++ e

def workerRun (msgs : List (List Char)) (wres : Nat → Option (List Char)) :
    List (List Char) × List (List Char) :=
  match msgs with
  | [] => ([], [])
  | m :: rest =>
    let tail := workerRun rest (fun i => wres (i + 1))
    match wres 0 with
    | none => (m :: tail.1, tail.2)
    | some e => (tail.1, failLine e :: tail.2)

/-- Position-tagged view of a list, used to state which messages succeed. -/
def enumFrom (k : Nat) : List α → List (Nat × α)
  | [] => []
  | a :: l => (k, a) :: enumFrom (k + 1) l

/-! ## Whole-system FIFO model (producers + channel + worker)

For the ordering claim we tag each sent line with the id of the producer
thread that issued it (the tag is ghost data; the Rust channel carries
only the line).  An execution is an arbitrary interleaving of events:
`send tid line` (some producer's `Sender::send`, which appends to the
FIFO queue) and `recv` (one iteration of the worker's `for message in
rx` loop: pop the front of the queue and append it to the file; a `recv`
on an empty queue blocks, i.e. changes nothing). -/

inductive LogEvent
  | send (tid : Nat) (line : List Char)
  | recv

structure LogSys where
  queue : List (Nat × List Char)
  file : List (Nat × List Char)
  sent : List (Nat × List Char)

def LogSys.step (s : LogSys) : LogEvent → LogSys
  | .send t m => { s with queue := s.queue ++ [(t, m)], sent := s.sent ++ [(t, m)] }
  | .recv =>
    match s.queue with
    | [] => s
    | x :: q => { s with queue := q, file := s.file ++ [x] }

def LogSys.init : LogSys := ⟨[], [], []⟩

def LogSys.run (evs : List LogEvent) : LogSys :=
  evs.foldl LogSys.step LogSys.init

/-! ## The line pattern of §8 property 4

A direct decidable matcher for
`^\d\x7b4\x7d-\d\x7b2\x7d-\d\x7b2\x7d \d\x7b2\x7d:\d\x7b2\x7d:\d\x7b2\x7d\.\d\x7b3\x7d\s+-\s+(DEBUG|INFO|WARN|ERROR)\s+hello$`. -/

def expectDigit : List Char → Option (List Char)
  | c :: r => if isDigitB c then some r else none
  | [] => none

def expectDigits : Nat → List Char → Option (List Char)
  | 0, s => some s
  | k + 1, s => (expectDigit s).bind (expectDigits k)

def expectChar (c : Char) : List Char → Option (List Char)
  | d :: r => if d == c then some r else none
  | [] => none

def expectLit : List Char → List Char → Option (List Char)
  | [], s => some s
  | c :: cs, s => (expectChar c s).bind (expectLit cs)

/-- Step for `\s+`: one or more whitespace characters (greedy). -/
def ws1 : List Char → Option (List Char)
  | c :: r => if isWsB c then some (r.dropWhile isWsB) else none
  | [] => none

/-- Step for the alternation `(DEBUG|INFO|WARN|ERROR)`. -/
def levelAlt (s : List Char) : Option (List Char) :=
  match expectLit lDEBUG s with
  | some r => some r
  | none =>
    match expectLit lINFO s with
    | some r => some r
    | none =>
      match expectLit lWARN s with
      | some r => some r
      | none => expectLit lERROR s

def hello : List Char := ['h', 'e', 'l', 'l', 'o']

/-- Run a sequence of parsing steps left to right. -/
def seqSteps : List (List Char → Option (List Char)) → List Char → Option (List Char)
  | [], s => some s
  | p :: ps, s => (p s).bind (seqSteps ps)

/-- The steps of the pattern, in order. -/
def helloSteps : List (List Char → Option (List Char)) :=
  [expectDigits 4, expectChar '-', expectDigits 2, expectChar '-', expectDigits 2,
   expectChar ' ', expectDigits 2, expectChar ':', expectDigits 2, expectChar ':',
   expectDigits 2, expectChar '.', expectDigits 3,
   ws1, expectChar '-', ws1, levelAlt, ws1, expectLit hello]

def matchHelloPattern (s : List Char) : Bool :=
  match seqSteps helloSteps s with
  | some r => r.isEmpty
  | none => false

/-- The thirteen steps of the pattern covering the timestamp. -/
def tsSteps : List (List Char → Option (List Char)) :=
  [expectDigits 4, expectChar '-', expectDigits 2, expectChar '-', expectDigits 2,
   expectChar ' ', expectDigits 2, expectChar ':', expectDigits 2, expectChar ':',
   expectDigits 2, expectChar '.', expectDigits 3]

/-- The remaining steps of the pattern: separator, level, message. -/
def tailSteps : List (List Char → Option (List Char)) :=
  [ws1, expectChar '-', ws1, levelAlt, ws1, expectLit hello]

/-! ## Configuration data model (config.rs)

`Config` and `UserConfig` with `#[derive(Serialize, Deserialize, PartialEq)]`. -/

structure UserConfig where
  config_path : List Char
  otp : Bool
  otp_uri : List Char
deriving DecidableEq

structure Config where
  app_name : List Char
  version : List Char
  user : List UserConfig
deriving DecidableEq

/-- The JSON field names, in declaration order. -/
def kAppName : List Char := ['a', 'p', 'p', '_', 'n', 'a', 'm', 'e']

def kVersion : List Char := ['v', 'e', 'r', 's', 'i', 'o', 'n']

def kUser : List Char := ['u', 's', 'e', 'r']

def kConfigPath : List Char := ['c', 'o', 'n', 'f', 'i', 'g', '_', 'p', 'a', 't', 'h']

def kOtp : List Char := ['o', 't', 'p']

def kOtpUri : List Char := ['o', 't', 'p', '_', 'u', 'r', 'i']

/-! ## JSON serialization (model of `serde_json::to_string_pretty`)

serde_json escapes exactly `"`, `\` and the control characters below
0x20; of those, 0x08 0x09 0x0A 0x0C 0x0D get the short escapes
`\b \t \n \f \r` and the rest become `\u00XX` with lowercase hex.  All
other characters are emitted verbatim.  The pretty printer indents by
two spaces per level, puts each field and each array element on its own
line, and prints an empty array as `[]`. -/

def escapeChar (c : Char) : List Char :=
  if c = '"' then ['\\', '"']
  else if c = '\\' then ['\\', '\\']
  else if c.toNat < 32 then
    if c = Char.ofNat 8 then ['\\', 'b']
    else if c = Char.ofNat 9 then ['\\', 't']
    else if c = Char.ofNat 10 then ['\\', 'n']
    else if c = Char.ofNat 12 then ['\\', 'f']
    else if c = Char.ofNat 13 then ['\\', 'r']
    else ['\\', 'u', '0', '0', hexDigit (c.toNat / 16), hexDigit c.toNat]
  else [c]

def escapeString (s : List Char) : List Char :=
  s.foldr (fun c acc => escapeChar c ++ acc) []

/-- A JSON string literal: quote, escaped body, quote. -/
def jquote (s : List Char) : List Char :=
  '"' :: escapeString s ++ ['"']

/-- Newline followed by `k` spaces of indentation. -/
def nl (k : Nat) : List Char :=
  '\n' :: List.replicate k ' '

def printBool (b : Bool) : List Char :=
  if b then ['t', 'r', 'u', 'e'] else ['f', 'a', 'l', 's', 'e']

/-- One `UserConfig` object as an array element (indent level 2, its
fields at level 3). -/
def printUser (u : UserConfig) : List Char :=
  '{' :: nl 6 ++ jquote kConfigPath ++ ':' :: ' ' :: jquote u.config_path ++ ',' ::
  nl 6 ++ jquote kOtp ++ ':' :: ' ' :: printBool u.otp ++ ',' ::
  nl 6 ++ jquote kOtpUri ++ ':' :: ' ' :: jquote u.otp_uri ++ nl 4 ++ ['}']

/-- Second and later array elements, then the closing bracket. -/
def printUsersRest : List UserConfig → List Char
  | [] => nl 2 ++ [']']
  | u :: us => ',' :: nl 4 ++ printUser u ++ printUsersRest us

/-- The `user` array; empty prints as `[]`. -/
def printUsers : List UserConfig → List Char
  | [] => ['[', ']']
  | u :: us => '[' :: nl 4 ++ printUser u ++ printUsersRest us

/-- Model of `serde_json::to_string_pretty(&config)`. -/
def printConfig (c : Config) : List Char :=
  '{' :: nl 2 ++ jquote kAppName ++ ':' :: ' ' :: jquote c.app_name ++ ',' ::
  nl 2 ++ jquote kVersion ++ ':' :: ' ' :: jquote c.version ++ ',' ::
  nl 2 ++ jquote kUser ++ ':' :: ' ' :: printUsers c.user ++ nl 0 ++ ['}']

/-! ## JSON deserialization (model of `serde_json::from_str::<Config>`)

A recursive-descent parser: JSON whitespace is skipped between tokens,
string literals are unescaped (including `\uXXXX`; lone surrogate code
points are rejected), booleans are the literals `true`/`false`.  The
derived `Deserialize` impl is modelled for the field order the derived
`Serialize` impl emits (serde also accepts permuted fields; that
generality is not needed to decide the claims).  The users array is
parsed with a fuel bound taken from the input length. -/

def isJsonWs (c : Char) : Bool :=
  c == ' ' || c == '\t' || c == '\n' || c == '\r'

def skipWs (s : List Char) : List Char :=
  s.dropWhile isJsonWs

def hexVal (c : Char) : Option Nat :=
  if 48 ≤ c.toNat ∧ c.toNat ≤ 57 then some (c.toNat - 48)
  else if 97 ≤ c.toNat ∧ c.toNat ≤ 102 then some (c.toNat - 87)
  else if 65 ≤ c.toNat ∧ c.toNat ≤ 70 then some (c.toNat - 55)
  else none

/-- Decode a `\uXXXX` code point; lone surrogates are invalid. -/
def uDecode (n : Nat) : Option Char :=
  if n < 55296 then some (Char.ofNat n)
  else if 57344 ≤ n then some (Char.ofNat n)
  else none

/-- Decode a single-character escape. -/
def escDecode (e : Char) : Option Char :=
  if e = '"' then some '"'
  else if e = '\\' then some '\\'
  else if e = '/' then some '/'
  else if e = 'b' then some (Char.ofNat 8)
  else if e = 'f' then some (Char.ofNat 12)
  else if e = 'n' then some (Char.ofNat 10)
  else if e = 'r' then some (Char.ofNat 13)
  else if e = 't' then some (Char.ofNat 9)
  else none

/-- Parse the body of a string literal after the opening quote, up to and
including the closing quote; unescaped control characters are invalid
JSON.  The fuel argument (strictly more than the number of characters
still to decode; callers pass the input length plus one) only makes the
recursion structural. -/
def parseStringBody : Nat → List Char → Option (List Char × List Char)
  | 0, _ => none
  | _ + 1, [] => none
  | fuel + 1, c :: r =>
    if c = '"' then some ([], r)
    else if c = '\\' then
      match r with
      | [] => none
      | e :: r2 =>
        if e = 'u' then
          match r2 with
          | h1 :: h2 :: h3 :: h4 :: r3 =>
            match hexVal h1, hexVal h2, hexVal h3, hexVal h4 with
            | some a, some b, some c3, some d =>
              match uDecode (a * 4096 + b * 256 + c3 * 16 + d) with
              | some ch => (parseStringBody fuel r3).map (fun p => (ch :: p.1, p.2))
              | none => none
            | _, _, _, _ => none
          | _ => none
        else
          match escDecode e with
          | some ch => (parseStringBody fuel r2).map (fun p => (ch :: p.1, p.2))
          | none => none
    else if c.toNat < 32 then none
    else (parseStringBody fuel r).map (fun p => (c :: p.1, p.2))

/-- Parse a JSON string literal (leading whitespace allowed). -/
def parseJstring (s : List Char) : Option (List Char × List Char) :=
  match skipWs s with
  | '"' :: r => parseStringBody (r.length + 1) r
  | _ => none

/-- Expect a single punctuation token, leading whitespace allowed. -/
def expectTok (c : Char) (s : List Char) : Option (List Char) :=
  match skipWs s with
  | d :: r => if d == c then some r else none
  | [] => none

def parseBool (s : List Char) : Option (Bool × List Char) :=
  match expectLit ['t', 'r', 'u', 'e'] (skipWs s) with
  | some r => some (true, r)
  | none =>
    match expectLit ['f', 'a', 'l', 's', 'e'] (skipWs s) with
    | some r => some (false, r)
    | none => none

/-- Parse an object key equal to `k` followed by the colon. -/
def parseKey (k : List Char) (s : List Char) : Option (List Char) :=
  match parseJstring s with
  | some (name, r) => if name = k then expectTok ':' r else none
  | none => none

/-- Parse one element of the `user` array. -/
def parseUser (s : List Char) : Option (UserConfig × List Char) :=
  (expectTok '{' s).bind fun s1 =>
  (parseKey kConfigPath s1).bind fun s2 =>
  (parseJstring s2).bind fun cp =>
  (expectTok ',' cp.2).bind fun s4 =>
  (parseKey kOtp s4).bind fun s5 =>
  (parseBool s5).bind fun b =>
  (expectTok ',' b.2).bind fun s7 =>
  (parseKey kOtpUri s7).bind fun s8 =>
  (parseJstring s8).bind fun uri =>
  (expectTok '}' uri.2).map fun s10 => (⟨cp.1, b.1, uri.1⟩, s10)

/-- Parse `, element`* `]` with a fuel bound on the element count. -/
def parseUsersTail (fuel : Nat) (s : List Char) : Option (List UserConfig × List Char) :=
  match fuel with
  | 0 => none
  | fuel + 1 =>
    match skipWs s with
    | ']' :: r => some ([], r)
    | ',' :: r =>
      (parseUser r).bind fun ur =>
        (parseUsersTail fuel ur.2).map fun t => (ur.1 :: t.1, t.2)
    | _ => none

/-- Parse the `user` array: after `[`, either the closing bracket
(empty array) or the first element followed by the tail. -/
def parseUsers (fuel : Nat) (s : List Char) : Option (List UserConfig × List Char) :=
  (expectTok '[' s).bind fun r =>
    match expectTok ']' r with
    | some r2 => some ([], r2)
    | none =>
      (parseUser r).bind fun ur =>
        (parseUsersTail fuel ur.2).map fun t => (ur.1 :: t.1, t.2)

/-- Model of `serde_json::from_str::<Config>`: parse the whole document; trailing
content other than whitespace is an error. -/
def parseConfigText (s : List Char) : Option Config :=
  (expectTok '{' s).bind fun s1 =>
  (parseKey kAppName s1).bind fun s2 =>
  (parseJstring s2).bind fun an =>
  (expectTok ',' an.2).bind fun s4 =>
  (parseKey kVersion s4).bind fun s5 =>
  (parseJstring s5).bind fun ver =>
  (expectTok ',' ver.2).bind fun s7 =>
  (parseKey kUser s7).bind fun s8 =>
  (parseUsers (s.length + 1) s8).bind fun us =>
  (expectTok '}' us.2).bind fun s10 =>
  if (skipWs s10).isEmpty then some ⟨an.1, ver.1, us.1⟩ else none

/-! ## The configuration store (config.rs)

The file system is embedded as a map from paths to file contents
(strings as `List Char`).  Panics are again the `Except.error` branch
carrying the panic message. -/

/-- Model of `Config::save_config`: `serde_json::to_string_pretty` (which cannot
fail on a `Config`, all keys being strings) followed by `fs::write`.
The model's write always succeeds; claim C7 presupposes a writable
path. -/
def Config.save_config (c : Config) (path : List Char)
    (fs : List Char → Option (List Char)) : List Char → Option (List Char) :=
  fun p => if p = path then some (printConfig c) else fs p

/-- Model of `Config::load_config`: `fs::read_to_string` then
`serde_json::from_str::<Config>`; either failure is returned as `Err`. -/
def Config.load_config (path : List Char) (fs : List Char → Option (List Char)) :
    Except String Config :=
  match fs path with
  | none => Except.error ("No such file or directory")
  | some content =>
    match parseConfigText content with
    | some c => Except.ok c
    | none => Except.error ("JSON parse error")

/-- Value of `const FILENAME: &str = ".wgbconf.json"`. -/
def FILENAME : List Char := ".wgbconf.json".toList

/-- Path from `home_dir()` followed by `path.push(FILENAME)`. -/
def configFilePath (home : List Char) : List Char :=
  home ++ '/' :: FILENAME

def appNameWGBridge : List Char := "WGBridge".toList

/-- The line `Config::init` logs when the existing file fails to load. -/
def loadFailMsg : List Char := "Failed to read the configuration".toList

/-- The line `Config::init` prints to stderr when `home_dir()` is `None`. -/
def couldNotDetermineMsg : List Char := "Could not determine the config file path.".toList

/-- The process state `Config::init` touches: the two `OnceLock`
singletons, the logger's channel, the file system and stderr. -/
structure CState where
  loggerSing : Option Logger
  ch : Channel
  configSing : Option Config
  fs : List Char → Option (List Char)
  stderrLines : List (List Char)

/-- Model of `Config::get`:
`CONFIG.get().expect("Configuration not initialized")` (the `lock()`
around the contained value is not modelled). -/
def Config.getSingleton (s : Option Config) : Except String Config :=
  match s with
  | some c => Except.ok c
  | none => Except.error ("Configuration not initialized")

/-- Model of `Config::init`.  Inputs fixed by the environment: `ver` is
`env!("CARGO_PKG_VERSION")` (the Cargo manifest is not part of the
sources, so the version string is a parameter), `home` is `home_dir()`,
`t` the current time for any log line.  Returns the state after the call
together with `ok` (normal return) or the panic message. -/
def Config.initStep (ver : List Char) (home : Option (List Char)) (t : DateTime)
    (st : CState) : CState × Except String Unit :=
  match Logger.getSingleton st.loggerSing with
  | Except.error e => (st, Except.error e)
  | Except.ok _ =>
    match home with
    | none =>
      ({ st with stderrLines := st.stderrLines ++ [couldNotDetermineMsg] }, Except.ok ())
    | some h =>
      let path := configFilePath h
      match st.fs path with
      | none =>
        let config : Config := ⟨appNameWGBridge, ver, []⟩
        let fs2 := Config.save_config config path st.fs
        match st.configSing with
        | none => ({ st with fs := fs2, configSing := some config }, Except.ok ())
        | some _ =>
          ({ st with fs := fs2 }, Except.error ("Configuration already initialized"))
      | some _ =>
        match Config.load_config path st.fs with
        | Except.ok config =>
          match st.configSing with
          | none => ({ st with configSing := some config }, Except.ok ())
          | some _ => (st, Except.error ("Configuration already initialized"))
        | Except.error _ =>
          ({ st with ch := Logger.error t st.ch loadFailMsg },
           Except.error ("called unwrap on an Err value"))

/-! # Theorems -/

/-! ## Character and formatting lemmas -/

theorem isDigitB_natDigit (n : Nat) : isDigitB (natDigit n) = true := by
  have h : n % 10 < 10 := Nat.mod_lt _ (by decide)
  unfold natDigit
  interval_cases h' : n % 10 <;> simp_all <;> decide

theorem formatTimestamp_length (t : DateTime) : (formatTimestamp t).length = 23 := by
  simp [formatTimestamp, pad4, pad3, pad2]

theorem padTo_20_timestamp (t : DateTime) :
    padTo 20 (formatTimestamp t) = formatTimestamp t := by
  simp [padTo, formatTimestamp_length]

theorem formatLine_eq_linePrefix (t : DateTime) (level m : List Char) :
    formatLine t level m = linePrefix t level ++ m := by
  simp [formatLine, linePrefix]

/-! ## Pattern-matching lemmas -/

theorem expectDigit_natDigit (n : Nat) (r : List Char) :
    expectDigit (natDigit n :: r) = some r := by
  simp [expectDigit, isDigitB_natDigit]

theorem expectDigits_pad4 (n : Nat) (r : List Char) :
    expectDigits 4 (pad4 n ++ r) = some r := by
  simp [pad4, expectDigits, expectDigit_natDigit]

theorem expectDigits_pad3 (n : Nat) (r : List Char) :
    expectDigits 3 (pad3 n ++ r) = some r := by
  simp [pad3, expectDigits, expectDigit_natDigit]

theorem expectDigits_pad2 (n : Nat) (r : List Char) :
    expectDigits 2 (pad2 n ++ r) = some r := by
  simp [pad2, expectDigits, expectDigit_natDigit]

theorem expectChar_self (c : Char) (r : List Char) :
    expectChar c (c :: r) = some r := by
  simp [expectChar]

theorem seqSteps_append (ps qs : List (List Char → Option (List Char))) (s : List Char) :
    seqSteps (ps ++ qs) s = (seqSteps ps s).bind (seqSteps qs) := by
  induction ps generalizing s with
  | nil => simp [seqSteps]
  | cons p ps ih =>
    simp only [List.cons_append, seqSteps]
    cases p s with
    | none => simp
    | some r => simp [ih]

theorem helloSteps_eq : helloSteps = tsSteps ++ tailSteps := rfl

theorem seqSteps_ts (t : DateTime) (rest : List Char) :
    seqSteps tsSteps (formatTimestamp t ++ rest) = some rest := by
  simp only [tsSteps, formatTimestamp, List.cons_append, List.append_assoc, seqSteps,
    expectDigits_pad4, expectDigits_pad2, expectDigits_pad3, expectChar_self,
    Option.some_bind]

theorem tail_debug :
    seqSteps tailSteps (' ' :: '-' :: ' ' :: (padTo 8 lDEBUG ++ ' ' :: ' ' :: hello)) = some [] := by
  rfl

theorem tail_info :
    seqSteps tailSteps (' ' :: '-' :: ' ' :: (padTo 8 lINFO ++ ' ' :: ' ' :: hello)) = some [] := by
  rfl

theorem tail_warn :
    seqSteps tailSteps (' ' :: '-' :: ' ' :: (padTo 8 lWARN ++ ' ' :: ' ' :: hello)) = some [] := by
  rfl

theorem tail_error :
    seqSteps tailSteps (' ' :: '-' :: ' ' :: (padTo 8 lERROR ++ ' ' :: ' ' :: hello)) = some [] := by
  rfl

theorem matchHello_debug (t : DateTime) :
    matchHelloPattern (formatLine t lDEBUG hello) = true := by
  rw [matchHelloPattern, formatLine, padTo_20_timestamp, helloSteps_eq, seqSteps_append]
  simp only [List.cons_append, List.append_assoc]
  rw [seqSteps_ts, Option.some_bind, tail_debug]
  rfl

theorem matchHello_info (t : DateTime) :
    matchHelloPattern (formatLine t lINFO hello) = true := by
  rw [matchHelloPattern, formatLine, padTo_20_timestamp, helloSteps_eq, seqSteps_append]
  simp only [List.cons_append, List.append_assoc]
  rw [seqSteps_ts, Option.some_bind, tail_info]
  rfl

theorem matchHello_warn (t : DateTime) :
    matchHelloPattern (formatLine t lWARN hello) = true := by
  rw [matchHelloPattern, formatLine, padTo_20_timestamp, helloSteps_eq, seqSteps_append]
  simp only [List.cons_append, List.append_assoc]
  rw [seqSteps_ts, Option.some_bind, tail_warn]
  rfl

theorem matchHello_error (t : DateTime) :
    matchHelloPattern (formatLine t lERROR hello) = true := by
  rw [matchHelloPattern, formatLine, padTo_20_timestamp, helloSteps_eq, seqSteps_append]
  simp only [List.cons_append, List.append_assoc]
  rw [seqSteps_ts, Option.some_bind, tail_error]
  rfl

/-! ## FIFO system lemmas -/

theorem foldl_inv (evs : List LogEvent) (s : LogSys) (h : s.file ++ s.queue = s.sent) :
    (evs.foldl LogSys.step s).file ++ (evs.foldl LogSys.step s).queue =
      (evs.foldl LogSys.step s).sent := by
  induction evs generalizing s with
  | nil => simpa using h
  | cons e evs ih =>
    simp only [List.foldl_cons]
    apply ih
    cases e with
    | send tid m =>
      simp only [LogSys.step]
      rw [← List.append_assoc, h]
    | recv =>
      cases hq : s.queue with
      | nil => simp only [LogSys.step, hq]; simpa [hq] using h
      | cons x q =>
        simp only [LogSys.step, hq]
        rw [List.append_assoc]
        simpa [hq] using h

/-! ## Worker loop lemmas -/

theorem workerRun_length (msgs : List (List Char)) (wres : Nat → Option (List Char)) :
    (workerRun msgs wres).1.length + (workerRun msgs wres).2.length = msgs.length := by
  induction msgs generalizing wres with
  | nil => simp [workerRun]
  | cons m rest ih =>
    have h2 := ih (fun i => wres (i + 1))
    cases h : wres 0 <;> simp [workerRun, h] <;> omega

theorem workerRun_enum (wres : Nat → Option (List Char)) (msgs : List (List Char)) :
    ∀ k : Nat,
    workerRun msgs (fun i => wres (k + i)) =
      (((enumFrom k msgs).filter (fun p => (wres p.1).isNone)).map Prod.snd,
       ((enumFrom k msgs).filter (fun p => (wres p.1).isSome)).map
         (fun p => failLine ((wres p.1).getD []))) := by
  induction msgs with
  | nil => intro k; simp [workerRun, enumFrom]
  | cons m rest ih =>
    intro k
    have hfun : (fun i => wres (k + (i + 1))) = fun i => wres (k + 1 + i) := by
      funext i
      congr 1
      omega
    have hstep : workerRun (m :: rest) (fun i => wres (k + i)) =
        (let tail := workerRun rest (fun i => wres (k + (i + 1)))
         match wres (k + 0) with
         | none => (m :: tail.1, tail.2)
         | some e => (tail.1, failLine e :: tail.2)) := rfl
    rw [hstep]
    simp only [hfun, ih (k + 1), Nat.add_zero, enumFrom]
    cases hw : wres k <;> simp [hw]

/-! ## Claim theorems for the logger -/

/-- Claim C1: in every interleaved execution of producer sends and worker
receive-and-write steps, the file's lines followed by the still-queued
lines equal exactly the lines sent, in enqueue order; hence the file is
always a prefix of the send order, any single producer's lines appear in
the file in its own issue order, and once the queue is drained the file
holds every sent line in exactly the order of enqueueing. -/
theorem spec_C1 (evs : List LogEvent) :
    (LogSys.run evs).file ++ (LogSys.run evs).queue = (LogSys.run evs).sent
    ∧ (LogSys.run evs).file <+: (LogSys.run evs).sent
    ∧ (∀ tid, (LogSys.run evs).file.filter (fun p => p.1 == tid) <+:
        (LogSys.run evs).sent.filter (fun p => p.1 == tid))
    ∧ ((LogSys.run evs).queue = [] → (LogSys.run evs).file = (LogSys.run evs).sent) := by
  have h' : (LogSys.run evs).file ++ (LogSys.run evs).queue = (LogSys.run evs).sent :=
    foldl_inv evs LogSys.init (by simp [LogSys.init])
  exact ⟨h', ⟨_, h'⟩, fun tid => List.IsPrefix.filter _ ⟨_, h'⟩,
    fun hq => by simpa [hq] using h'⟩

/-- Claim C2: with the channel open, each of the four severity operations
enqueues exactly one line, namely
`formatLine t LEVEL msg = padTo 20 timestamp ++ " - " ++ padTo 8 level ++ "  " ++ msg`
(timestamp `YYYY-MM-DD HH:MM:SS.mmm`, both pads left-aligned to minimum
widths 20 and 8), and for the message `hello` that line matches the
pattern of §8 property 4. -/
theorem spec_C2 (t : DateTime) (ch : Channel) (msg : List Char)
    (_hy : t.year < 10000) (_hmo : t.month < 100) (_hd : t.day < 100)
    (_hh : t.hour < 100) (_hmi : t.minute < 100) (_hs : t.second < 100)
    (_hms : t.millis < 1000) (hopen : ch.closed = false) :
    (Logger.debug t ch msg).queue = ch.queue ++ [formatLine t lDEBUG msg]
    ∧ (Logger.info t ch msg).queue = ch.queue ++ [formatLine t lINFO msg]
    ∧ (Logger.warn t ch msg).queue = ch.queue ++ [formatLine t lWARN msg]
    ∧ (Logger.error t ch msg).queue = ch.queue ++ [formatLine t lERROR msg]
    ∧ matchHelloPattern (formatLine t lDEBUG hello) = true
    ∧ matchHelloPattern (formatLine t lINFO hello) = true
    ∧ matchHelloPattern (formatLine t lWARN hello) = true
    ∧ matchHelloPattern (formatLine t lERROR hello) = true := by
  refine ⟨?_, ?_, ?_, ?_, matchHello_debug t, matchHello_info t, matchHello_warn t,
    matchHello_error t⟩ <;>
  simp [Logger.debug, Logger.info, Logger.warn, Logger.error, Logger.log, Channel.send, hopen]

theorem spec_C2_witness :
    (Logger.debug ⟨2025, 10, 12, 13, 45, 59, 123⟩ ⟨false, []⟩ hello).queue =
      [] ++ [formatLine ⟨2025, 10, 12, 13, 45, 59, 123⟩ lDEBUG hello]
    ∧ matchHelloPattern (formatLine ⟨2025, 10, 12, 13, 45, 59, 123⟩ lDEBUG hello) = true :=
  have h := spec_C2 ⟨2025, 10, 12, 13, 45, 59, 123⟩ ⟨false, []⟩ hello (by decide) (by decide)
    (by decide) (by decide) (by decide) (by decide) (by decide) rfl
  ⟨h.1, h.2.2.2.2.1⟩

/-- Claim C3: with the channel open, each error-annotated operation
enqueues, by two separate sends, exactly two lines sharing the identical
timestamp-and-level prefix `linePrefix t LEVEL`, the first ending in the
message and the second ending in the error's text. -/
theorem spec_C3 (t : DateTime) (ch : Channel) (msg errText : List Char)
    (hopen : ch.closed = false) :
    (Logger.debugError t ch msg errText).queue =
      ch.queue ++ [linePrefix t lDEBUG ++ msg, linePrefix t lDEBUG ++ errText]
    ∧ (Logger.infoError t ch msg errText).queue =
      ch.queue ++ [linePrefix t lINFO ++ msg, linePrefix t lINFO ++ errText]
    ∧ (Logger.warnError t ch msg errText).queue =
      ch.queue ++ [linePrefix t lWARN ++ msg, linePrefix t lWARN ++ errText]
    ∧ (Logger.errorError t ch msg errText).queue =
      ch.queue ++ [linePrefix t lERROR ++ msg, linePrefix t lERROR ++ errText]
    ∧ (∀ level, msg <:+ linePrefix t level ++ msg)
    ∧ (∀ level, errText <:+ linePrefix t level ++ errText) := by
  refine ⟨?_, ?_, ?_, ?_, fun _ => List.suffix_append _ _, fun _ => List.suffix_append _ _⟩ <;>
  simp [Logger.debugError, Logger.infoError, Logger.warnError, Logger.errorError,
    Logger.logError, Channel.send, hopen, formatLine_eq_linePrefix]

theorem spec_C3_witness :
    (Logger.errorError ⟨2025, 10, 12, 13, 45, 59, 123⟩ ⟨false, []⟩ ['c', 't', 'x']
        ['b', 'o', 'o', 'm']).queue =
      [] ++ [linePrefix ⟨2025, 10, 12, 13, 45, 59, 123⟩ lERROR ++ ['c', 't', 'x'],
             linePrefix ⟨2025, 10, 12, 13, 45, 59, 123⟩ lERROR ++ ['b', 'o', 'o', 'm']]
    ∧ ['c', 't', 'x'] <:+
        linePrefix ⟨2025, 10, 12, 13, 45, 59, 123⟩ lERROR ++ ['c', 't', 'x']
    ∧ ['b', 'o', 'o', 'm'] <:+
        linePrefix ⟨2025, 10, 12, 13, 45, 59, 123⟩ lERROR ++ ['b', 'o', 'o', 'm'] :=
  have h := spec_C3 ⟨2025, 10, 12, 13, 45, 59, 123⟩ ⟨false, []⟩ ['c', 't', 'x']
    ['b', 'o', 'o', 'm'] rfl
  ⟨h.2.2.2.1, h.2.2.2.2.1 lERROR, h.2.2.2.2.2 lERROR⟩

/-- Claim C4: once the channel's receiving end is gone (`closed`), the
underlying `send` reports failure, but every logging operation discards
that result and returns with the channel state unchanged: the message is
lost and nothing is surfaced to the caller. -/
theorem spec_C4 (t : DateTime) (ch : Channel) (level msg errText : List Char)
    (hclosed : ch.closed = true) :
    Logger.log t ch level msg = ch
    ∧ Logger.logError t ch level msg errText = ch
    ∧ (ch.send (formatLine t level msg)).2 = false
    ∧ Logger.debug t ch msg = ch ∧ Logger.info t ch msg = ch
    ∧ Logger.warn t ch msg = ch ∧ Logger.error t ch msg = ch := by
  simp [Logger.log, Logger.logError, Channel.send, hclosed, Logger.debug, Logger.info,
    Logger.warn, Logger.error]

theorem spec_C4_witness :
    Logger.log ⟨2025, 10, 12, 13, 45, 59, 123⟩ ⟨true, []⟩ lINFO hello = ⟨true, []⟩
    ∧ Logger.logError ⟨2025, 10, 12, 13, 45, 59, 123⟩ ⟨true, []⟩ lINFO hello hello = ⟨true, []⟩
    ∧ (Channel.send ⟨true, []⟩ (formatLine ⟨2025, 10, 12, 13, 45, 59, 123⟩ lINFO hello)).2
        = false :=
  have h := spec_C4 ⟨2025, 10, 12, 13, 45, 59, 123⟩ ⟨true, []⟩ lINFO hello hello rfl
  ⟨h.1, h.2.1, h.2.2.1⟩

/-- Claim C5: the worker attempts every received message in order; a
failed write sends `Failed to write log: <e>` to stderr and the loop
continues with the remaining queued messages (the successfully written
ones land in the file, every failed one lands on stderr, and together
they account for every received message); the loop ends only when the
received sequence is exhausted, i.e. the channel closed. -/
theorem spec_C5 (msgs : List (List Char)) (wres : Nat → Option (List Char)) :
    (workerRun msgs wres).1 =
      ((enumFrom 0 msgs).filter (fun p => (wres p.1).isNone)).map Prod.snd
    ∧ (workerRun msgs wres).2 =
      ((enumFrom 0 msgs).filter (fun p => (wres p.1).isSome)).map
        (fun p => failLine ((wres p.1).getD []))
    ∧ (workerRun msgs wres).1.length + (workerRun msgs wres).2.length = msgs.length := by
  have h0 : (fun i => wres (0 + i)) = wres := by
    funext i
    rw [Nat.zero_add]
  have h := workerRun_enum wres msgs 0
  rw [h0] at h
  exact ⟨by rw [h], by rw [h], workerRun_length msgs wres⟩

/-! ## JSON round-trip lemmas -/

theorem skipWs_replicate (k : Nat) (s : List Char) :
    skipWs (List.replicate k ' ' ++ s) = skipWs s := by
  induction k with
  | zero => simp
  | succ k ih =>
    rw [List.replicate_succ]
    simp [skipWs, List.dropWhile, isJsonWs, ih]

theorem skipWs_nl (k : Nat) (s : List Char) : skipWs (nl k ++ s) = skipWs s := by
  rw [nl]
  simp [skipWs, List.dropWhile, isJsonWs, skipWs_replicate k s]

theorem skipWs_space (s : List Char) : skipWs (' ' :: s) = skipWs s := by
  simp [skipWs, List.dropWhile, isJsonWs]

theorem skipWs_cons_not {c : Char} (s : List Char) (h : isJsonWs c = false) :
    skipWs (c :: s) = c :: s := by
  simp [skipWs, List.dropWhile, h]

theorem expectTok_nl (c : Char) (k : Nat) (s : List Char) :
    expectTok c (nl k ++ s) = expectTok c s := by
  simp [expectTok, skipWs_nl]

theorem expectTok_space (c : Char) (s : List Char) :
    expectTok c (' ' :: s) = expectTok c s := by
  simp [expectTok, skipWs_space]

theorem expectTok_self (c : Char) (s : List Char) (h : isJsonWs c = false) :
    expectTok c (c :: s) = some s := by
  simp [expectTok, skipWs_cons_not s h]

theorem expectTok_lbrace (s : List Char) : expectTok '{' ('{' :: s) = some s :=
  expectTok_self '{' s (by decide)

theorem expectTok_rbrace (s : List Char) : expectTok '}' ('}' :: s) = some s :=
  expectTok_self '}' s (by decide)

theorem expectTok_comma (s : List Char) : expectTok ',' (',' :: s) = some s :=
  expectTok_self ',' s (by decide)

theorem expectTok_colon (s : List Char) : expectTok ':' (':' :: s) = some s :=
  expectTok_self ':' s (by decide)

theorem hexVal_hexDigit (n : Nat) : hexVal (hexDigit n) = some (n % 16) := by
  have h : n % 16 < 16 := Nat.mod_lt _ (by decide)
  unfold hexDigit
  interval_cases hm : n % 16 <;> simp_all <;> decide

theorem escapeString_length (s : List Char) : s.length ≤ (escapeString s).length := by
  induction s with
  | nil => simp [escapeString]
  | cons c s' ih =>
    have h : escapeString (c :: s') = escapeChar c ++ escapeString s' := rfl
    have hc : 1 ≤ (escapeChar c).length := by
      unfold escapeChar
      repeat' split
      all_goals simp
    rw [h]
    simp only [List.length_append, List.length_cons]
    omega

theorem parseStringBody_escape (s : List Char) :
    ∀ (fuel : Nat) (rest : List Char), s.length < fuel →
    parseStringBody fuel (escapeString s ++ '"' :: rest) = some (s, rest) := by
  induction s with
  | nil =>
    intro fuel rest hf
    cases fuel with
    | zero => exact absurd hf (by omega)
    | succ f => rfl
  | cons c s' ih =>
    intro fuel rest hf
    cases fuel with
    | zero => exact absurd hf (by omega)
    | succ f =>
      have hf' : s'.length < f := by
        simp only [List.length_cons] at hf
        omega
    
      have ihf := ih f rest hf'
      have hesc : escapeString (c :: s') = escapeChar c ++ escapeString s' := rfl
      rw [hesc, List.append_assoc]
      by_cases hq : c = '"'
      · subst hq
        simp [escapeChar, parseStringBody, escDecode, ihf]
      by_cases hb : c = '\\'
      · subst hb
        simp [escapeChar, parseStringBody, escDecode, ihf]
      by_cases hc : c.toNat < 32
      · by_cases h8 : c = Char.ofNat 8
        · subst h8
          simp [escapeChar, parseStringBody, escDecode, ihf]
        by_cases h9 : c = Char.ofNat 9
        · subst h9
          simp [escapeChar, parseStringBody, escDecode, ihf]
        by_cases hA : c = Char.ofNat 10
        · subst hA
          simp [escapeChar, parseStringBody, escDecode, ihf]
        by_cases hC : c = Char.ofNat 12
        · subst hC
          simp [escapeChar, parseStringBody, escDecode, ihf]
        by_cases hD : c = Char.ofNat 13
        · subst hD
          simp [escapeChar, parseStringBody, escDecode, ihf]
        · have hch : escapeChar c =
              ['\\', 'u', '0', '0', hexDigit (c.toNat / 16), hexDigit c.toNat] := by
            simp [escapeChar, hq, hb, hc, h8, h9, hA, hC, hD]
          rw [hch]
          have hdiv : c.toNat / 16 % 16 = c.toNat / 16 := Nat.mod_eq_of_lt (by omega)
          have hv0 : hexVal '0' = some 0 := by decide
          have harith : c.toNat / 16 * 16 + c.toNat % 16 = c.toNat := by omega
          have hu : uDecode c.toNat = some c := by
            unfold uDecode
            rw [if_pos (by omega)]
            simp [Char.ofNat_toNat]
          simp [parseStringBody, hexVal_hexDigit, hdiv, hv0, harith, hu, ihf]
      · simp [parseStringBody, escapeChar, hq, hb, hc, ihf]



theorem parseJstring_jquote (s rest : List Char) :
    parseJstring (jquote s ++ rest) = some (s, rest) := by
  have h1 : jquote s ++ rest = '"' :: (escapeString s ++ '"' :: rest) := by
    simp [jquote]
  rw [h1]
  unfold parseJstring
  rw [skipWs_cons_not _ (by decide)]
  exact parseStringBody_escape s _ rest
    (by
      have := escapeString_length s
      simp only [List.length_append, List.length_cons]
      omega)

theorem parseJstring_nl (k : Nat) (s : List Char) :
    parseJstring (nl k ++ s) = parseJstring s := by
  simp [parseJstring, skipWs_nl]

theorem parseJstring_space (s : List Char) :
    parseJstring (' ' :: s) = parseJstring s := by
  simp [parseJstring, skipWs_space]

theorem parseKey_print (k rest : List Char) :
    parseKey k (jquote k ++ ':' :: rest) = some rest := by
  simp [parseKey, parseJstring_jquote, expectTok_colon]

theorem parseKey_nl (k : List Char) (j : Nat) (s : List Char) :
    parseKey k (nl j ++ s) = parseKey k s := by
  simp [parseKey, parseJstring_nl]

theorem parseBool_print (b : Bool) (rest : List Char) :
    parseBool (printBool b ++ rest) = some (b, rest) := by
  cases b <;> rfl

theorem parseBool_space (s : List Char) : parseBool (' ' :: s) = parseBool s := by
  simp [parseBool, skipWs_space]

theorem parseUser_nl (k : Nat) (s : List Char) :
    parseUser (nl k ++ s) = parseUser s := by
  unfold parseUser
  rw [expectTok_nl]

theorem parseUser_print (u : UserConfig) (rest : List Char) :
    parseUser (printUser u ++ rest) = some (u, rest) := by
  obtain ⟨cp, b, uri⟩ := u
  show parseUser ('{' :: (nl 6 ++ jquote kConfigPath ++ ':' :: ' ' :: jquote cp ++ ',' ::
      nl 6 ++ jquote kOtp ++ ':' :: ' ' :: printBool b ++ ',' ::
      nl 6 ++ jquote kOtpUri ++ ':' :: ' ' :: jquote uri ++ nl 4 ++ ['}']) ++ rest) =
    some (⟨cp, b, uri⟩, rest)
  unfold parseUser
  simp only [List.cons_append, List.append_assoc]
  rw [expectTok_lbrace, Option.some_bind, parseKey_nl, parseKey_print, Option.some_bind,
    parseJstring_space, parseJstring_jquote, Option.some_bind, expectTok_comma,
    Option.some_bind, parseKey_nl, parseKey_print, Option.some_bind, parseBool_space,
    parseBool_print, Option.some_bind, expectTok_comma, Option.some_bind, parseKey_nl,
    parseKey_print, Option.some_bind, parseJstring_space, parseJstring_jquote,
    Option.some_bind, expectTok_nl, expectTok_rbrace]
  simp

theorem printUser_head (u : UserConfig) (rest : List Char) :
    printUser u ++ rest = '{' :: (nl 6 ++ jquote kConfigPath ++ ':' :: ' ' ::
      jquote u.config_path ++ ',' :: nl 6 ++ jquote kOtp ++ ':' :: ' ' ::
      printBool u.otp ++ ',' :: nl 6 ++ jquote kOtpUri ++ ':' :: ' ' ::
      jquote u.otp_uri ++ nl 4 ++ ['}'] ++ rest) := by
  simp [printUser]

theorem expectTok_lbrack (s : List Char) : expectTok '[' ('[' :: s) = some s :=
  expectTok_self '[' s (by decide)

theorem parseUsersTail_ws (fuel k : Nat) (s : List Char) :
    parseUsersTail fuel (nl k ++ s) = parseUsersTail fuel s := by
  cases fuel with
  | zero => rfl
  | succ f =>
    unfold parseUsersTail
    rw [skipWs_nl]

theorem parseUsersTail_close (f : Nat) (r : List Char) :
    parseUsersTail (f + 1) (']' :: r) = some ([], r) := rfl

theorem parseUsersTail_comma (f : Nat) (r : List Char) :
    parseUsersTail (f + 1) (',' :: r) =
      (parseUser r).bind fun ur =>
        (parseUsersTail f ur.2).map fun t => (ur.1 :: t.1, t.2) := rfl

theorem parseUsersTail_print (us : List UserConfig) :
    ∀ (fuel : Nat) (rest : List Char), us.length < fuel →
    parseUsersTail fuel (printUsersRest us ++ rest) = some (us, rest) := by
  induction us with
  | nil =>
    intro fuel rest hf
    cases fuel with
    | zero => exact absurd hf (by omega)
    | succ f =>
      show parseUsersTail (f + 1) (nl 2 ++ ']' :: rest) = some ([], rest)
      rw [parseUsersTail_ws, parseUsersTail_close]
  | cons u us' ih =>
    intro fuel rest hf
    cases fuel with
    | zero => exact absurd hf (by omega)
    | succ f =>
      have hf' : us'.length < f := by
        simp only [List.length_cons] at hf
        omega
      show parseUsersTail (f + 1)
        (',' :: (nl 4 ++ printUser u ++ printUsersRest us') ++ rest) = some (u :: us', rest)
      simp only [List.cons_append, List.append_assoc]
      rw [parseUsersTail_comma, parseUser_nl, parseUser_print, Option.some_bind]
      simp only [ih f rest hf']
      rfl

theorem expectTok_ne (c d : Char) (s : List Char) (h : isJsonWs c = false)
    (h2 : (c == d) = false) : expectTok d (c :: s) = none := by
  simp [expectTok, skipWs_cons_not _ h, h2]

theorem parseUsers_lbrack (fuel : Nat) (X : List Char) :
    parseUsers fuel ('[' :: X) =
      match expectTok ']' X with
      | some r2 => some ([], r2)
      | none =>
        (parseUser X).bind fun ur =>
          (parseUsersTail fuel ur.2).map fun t => (ur.1 :: t.1, t.2) := by
  unfold parseUsers
  rw [expectTok_lbrack, Option.some_bind]

theorem parseUsers_print (us : List UserConfig) (fuel : Nat) (rest : List Char)
    (hf : us.length < fuel) :
    parseUsers fuel (printUsers us ++ rest) = some (us, rest) := by
  cases us with
  | nil => rfl
  | cons u us' =>
    have hf' : us'.length < fuel := by
      simp only [List.length_cons] at hf
      omega
    have hshape : printUsers (u :: us') ++ rest =
        '[' :: (nl 4 ++ (printUser u ++ (printUsersRest us' ++ rest))) := by
      simp [printUsers]
    rw [hshape, parseUsers_lbrack]
    have hne : expectTok ']' (nl 4 ++ (printUser u ++ (printUsersRest us' ++ rest))) = none := by
      rw [expectTok_nl, printUser_head, expectTok_ne _ _ _ (by decide) (by decide)]
    rw [hne]
    simp only []
    rw [parseUser_nl, parseUser_print, Option.some_bind]
    simp only [parseUsersTail_print us' fuel rest hf']
    rfl



theorem parseUsers_space (fuel : Nat) (s : List Char) :
    parseUsers fuel (' ' :: s) = parseUsers fuel s := by
  unfold parseUsers
  rw [expectTok_space]

theorem printUsersRest_length (us : List UserConfig) :
    us.length ≤ (printUsersRest us).length := by
  induction us with
  | nil => simp [printUsersRest]
  | cons u us' ih =>
    simp only [printUsersRest, List.length_cons, List.length_append]
    omega

theorem printUsers_length (us : List UserConfig) :
    us.length ≤ (printUsers us).length := by
  cases us with
  | nil => simp [printUsers]
  | cons u us' =>
    have h := printUsersRest_length us'
    simp only [printUsers, List.length_cons, List.length_append]
    omega

theorem printConfig_length (c : Config) :
    c.user.length < (printConfig c).length + 1 := by
  have h := printUsers_length c.user
  simp only [printConfig, List.length_cons, List.length_append]
  omega

theorem parseConfigText_print (c : Config) :
    parseConfigText (printConfig c) = some c := by
  obtain ⟨a, v, us⟩ := c
  have hshape : printConfig ⟨a, v, us⟩ =
      '{' :: (nl 2 ++ (jquote kAppName ++ ':' :: ' ' :: (jquote a ++ ',' ::
        (nl 2 ++ (jquote kVersion ++ ':' :: ' ' :: (jquote v ++ ',' ::
        (nl 2 ++ (jquote kUser ++ ':' :: ' ' ::
          (printUsers us ++ (nl 0 ++ ['}'])))))))))) := by
    simp [printConfig]
  have hf0 : us.length < (printConfig ⟨a, v, us⟩).length + 1 := by
    simpa using printConfig_length ⟨a, v, us⟩
  rw [hshape] at hf0
  unfold parseConfigText
  rw [hshape]
  rw [expectTok_lbrace, Option.some_bind, parseKey_nl, parseKey_print, Option.some_bind,
    parseJstring_space, parseJstring_jquote, Option.some_bind, expectTok_comma,
    Option.some_bind, parseKey_nl, parseKey_print, Option.some_bind, parseJstring_space,
    parseJstring_jquote, Option.some_bind, expectTok_comma, Option.some_bind, parseKey_nl,
    parseKey_print, Option.some_bind, parseUsers_space,
    parseUsers_print us _ _ hf0, Option.some_bind, expectTok_nl, expectTok_rbrace,
    Option.some_bind]
  simp [skipWs]

/-! ## Claim theorems for the configuration store -/

/-- Claim C7: saving any `Config` to a (writable) path and loading it
back from the same path returns the original value; equivalently, JSON
serialization followed by deserialization is the identity on `Config`
values. -/
theorem spec_C7 (c : Config) (path : List Char) (fs : List Char → Option (List Char)) :
    Config.load_config path (Config.save_config c path fs) = Except.ok c
    ∧ parseConfigText (printConfig c) = some c := by
  constructor
  · unfold Config.load_config Config.save_config
    simp [parseConfigText_print]
  · exact parseConfigText_print c

/-- Claim C6: misuse of the singletons panics (modelled as the
`Except.error` branch carrying the panic message, not a recoverable
return value): `Logger::get` and `Config::get` before the corresponding
`init` panic, `Logger::init` after a successful initialization panics,
and `Config::init` after a successful initialization panics whatever the
configuration file now holds. -/
theorem spec_C6 (l lg : Logger) (ver h : List Char) (t : DateTime) (st : CState)
    (c : Config) (hlog : st.loggerSing = some lg) (hcfg : st.configSing = some c) :
    Logger.getSingleton none = Except.error ("Logger not initialized")
    ∧ Logger.initStep (some l) = Except.error ("Logger already initialized")
    ∧ Config.getSingleton none = Except.error ("Configuration not initialized")
    ∧ ∃ msg, (Config.initStep ver (some h) t st).2 = Except.error msg := by
  refine ⟨rfl, rfl, rfl, ?_⟩
  unfold Config.initStep
  rw [hlog]
  simp only [Logger.getSingleton]
  cases hf : st.fs (configFilePath h) with
  | none =>
    exact ⟨"Configuration already initialized", by simp [hcfg]⟩
  | some content =>
    unfold Config.load_config
    rw [hf]
    cases hp : parseConfigText content with
    | none => exact ⟨"called unwrap on an Err value", by simp [hp]⟩
    | some cfg => exact ⟨"Configuration already initialized", by simp [hp, hcfg]⟩

theorem spec_C6_witness :
    Logger.getSingleton none = Except.error ("Logger not initialized")
    ∧ Logger.initStep (some ⟨()⟩) = Except.error ("Logger already initialized")
    ∧ Config.getSingleton none = Except.error ("Configuration not initialized")
    ∧ ∃ msg, (Config.initStep [] (some []) ⟨0, 0, 0, 0, 0, 0, 0⟩
        ⟨some ⟨()⟩, ⟨false, []⟩, some ⟨[], [], []⟩, fun _ => none, []⟩).2 =
          Except.error msg :=
  spec_C6 ⟨()⟩ ⟨()⟩ [] [] ⟨0, 0, 0, 0, 0, 0, 0⟩
    ⟨some ⟨()⟩, ⟨false, []⟩, some ⟨[], [], []⟩, fun _ => none, []⟩ ⟨[], [], []⟩ rfl rfl

/-- Claim C8: with the logger initialized and no configuration file at
the resolved path, `Config::init` returns normally, installs
`Config { app_name: "WGBridge", version: <cargo version>, user: [] }` as
the singleton, and persists exactly that value (its pretty-printed JSON)
at the path. -/
theorem spec_C8 (ver h : List Char) (t : DateTime) (st : CState) (lg : Logger)
    (hlog : st.loggerSing = some lg) (hcfg : st.configSing = none)
    (hfile : st.fs (configFilePath h) = none) :
    (Config.initStep ver (some h) t st).2 = Except.ok ()
    ∧ (Config.initStep ver (some h) t st).1.configSing =
        some ⟨appNameWGBridge, ver, []⟩
    ∧ (Config.initStep ver (some h) t st).1.fs (configFilePath h) =
        some (printConfig ⟨appNameWGBridge, ver, []⟩) := by
  unfold Config.initStep
  rw [hlog]
  simp only [Logger.getSingleton]
  rw [hfile, hcfg]
  simp [Config.save_config]

theorem spec_C8_witness :
    (Config.initStep ['1'] (some ['h']) ⟨2025, 10, 12, 13, 45, 59, 123⟩
        ⟨some ⟨()⟩, ⟨false, []⟩, none, fun _ => none, []⟩).2 = Except.ok ()
    ∧ (Config.initStep ['1'] (some ['h']) ⟨2025, 10, 12, 13, 45, 59, 123⟩
        ⟨some ⟨()⟩, ⟨false, []⟩, none, fun _ => none, []⟩).1.configSing =
        some ⟨appNameWGBridge, ['1'], []⟩
    ∧ (Config.initStep ['1'] (some ['h']) ⟨2025, 10, 12, 13, 45, 59, 123⟩
        ⟨some ⟨()⟩, ⟨false, []⟩, none, fun _ => none, []⟩).1.fs (configFilePath ['h']) =
        some (printConfig ⟨appNameWGBridge, ['1'], []⟩) :=
  spec_C8 ['1'] ['h'] ⟨2025, 10, 12, 13, 45, 59, 123⟩
    ⟨some ⟨()⟩, ⟨false, []⟩, none, fun _ => none, []⟩ ⟨()⟩ rfl rfl rfl

/-- Claim C9: with the logger initialized, when a file exists at the
resolved path but does not parse as a `Config`, `Config::init` logs
`Failed to read the configuration` through the Logger and then unwraps
the erroring result: it panics (modelled as the `Except.error` branch)
and the `CONFIG` singleton is left unset. -/
theorem spec_C9 (ver h content : List Char) (t : DateTime) (st : CState) (lg : Logger)
    (hlog : st.loggerSing = some lg)
    (hfile : st.fs (configFilePath h) = some content)
    (hbad : parseConfigText content = none) :
    (Config.initStep ver (some h) t st).2 =
      Except.error ("called unwrap on an Err value")
    ∧ (Config.initStep ver (some h) t st).1.configSing = st.configSing
    ∧ (Config.initStep ver (some h) t st).1.ch = Logger.error t st.ch loadFailMsg := by
  unfold Config.initStep Config.load_config
  rw [hlog]
  simp only [Logger.getSingleton]
  rw [hfile]
  simp [hbad]

theorem spec_C9_witness :
    (Config.initStep ['1'] (some ['h']) ⟨2025, 10, 12, 13, 45, 59, 123⟩
        ⟨some ⟨()⟩, ⟨false, []⟩, none,
          (fun p => if p = configFilePath ['h'] then some ['x'] else none), []⟩).2 =
      Except.error ("called unwrap on an Err value")
    ∧ (Config.initStep ['1'] (some ['h']) ⟨2025, 10, 12, 13, 45, 59, 123⟩
        ⟨some ⟨()⟩, ⟨false, []⟩, none,
          (fun p => if p = configFilePath ['h'] then some ['x'] else none), []⟩).1.configSing =
      none
    ∧ (Config.initStep ['1'] (some ['h']) ⟨2025, 10, 12, 13, 45, 59, 123⟩
        ⟨some ⟨()⟩, ⟨false, []⟩, none,
          (fun p => if p = configFilePath ['h'] then some ['x'] else none), []⟩).1.ch =
      Logger.error ⟨2025, 10, 12, 13, 45, 59, 123⟩ ⟨false, []⟩ loadFailMsg :=
  spec_C9 ['1'] ['h'] ['x'] ⟨2025, 10, 12, 13, 45, 59, 123⟩
    ⟨some ⟨()⟩, ⟨false, []⟩, none,
      (fun p => if p = configFilePath ['h'] then some ['x'] else none), []⟩ ⟨()⟩
    rfl (by simp) rfl

/-- Claim C10: with the logger initialized, when the home directory
cannot be determined `Config::init` prints
`Could not determine the config file path.` to stderr and returns
normally (no panic) without touching the `CONFIG` singleton; if the
singleton was unset it stays unset, so every later `Config::get` panics
with `Configuration not initialized`. -/
theorem spec_C10 (ver : List Char) (t : DateTime) (st : CState) (lg : Logger)
    (hlog : st.loggerSing = some lg) (hcfg : st.configSing = none) :
    (Config.initStep ver none t st).2 = Except.ok ()
    ∧ (Config.initStep ver none t st).1.stderrLines =
        st.stderrLines ++ [couldNotDetermineMsg]
    ∧ (Config.initStep ver none t st).1.configSing = none
    ∧ Config.getSingleton (Config.initStep ver none t st).1.configSing =
        Except.error ("Configuration not initialized") := by
  unfold Config.initStep
  rw [hlog]
  simp [Logger.getSingleton, hcfg, Config.getSingleton]

theorem spec_C10_witness :
    (Config.initStep ['1'] none ⟨2025, 10, 12, 13, 45, 59, 123⟩
        ⟨some ⟨()⟩, ⟨false, []⟩, none, fun _ => none, []⟩).2 = Except.ok ()
    ∧ (Config.initStep ['1'] none ⟨2025, 10, 12, 13, 45, 59, 123⟩
        ⟨some ⟨()⟩, ⟨false, []⟩, none, fun _ => none, []⟩).1.stderrLines =
        [] ++ [couldNotDetermineMsg]
    ∧ (Config.initStep ['1'] none ⟨2025, 10, 12, 13, 45, 59, 123⟩
        ⟨some ⟨()⟩, ⟨false, []⟩, none, fun _ => none, []⟩).1.configSing = none
    ∧ Config.getSingleton (Config.initStep ['1'] none ⟨2025, 10, 12, 13, 45, 59, 123⟩
        ⟨some ⟨()⟩, ⟨false, []⟩, none, fun _ => none, []⟩).1.configSing =
        Except.error ("Configuration not initialized") :=
  spec_C10 ['1'] ⟨2025, 10, 12, 13, 45, 59, 123⟩
    ⟨some ⟨()⟩, ⟨false, []⟩, none, fun _ => none, []⟩ ⟨()⟩ rfl rfl

end WgBridge
